import Mathlib

/-!
Verification of the FJE renderer (src/fje.py, src/components.py).

The embedding below translates the Python source into Lean:
Python strings are Lean strings (both are sequences of code points, so
len / + / replace translate to String.length / ++ / the replace functions
defined here), printed output is collected into a List String in print
order, and the one mutation in the source (RectangleContainer.draw popping
the first child of the root) is made explicit by returning the post-draw
node alongside the emitted lines.
-/

namespace FJE

/-- Decoded JSON values as the Builder receives them: mappings with keys in
iteration order, or scalars (string, integer, boolean) or null. -/
inductive Json where
  | obj (fields : List (String × Json))
  | str (s : String)
  | num (n : Int)
  | bool (b : Bool)
  | null

/-- IconFamily from components.py lines 189-198: a pair of icon strings. -/
structure IconFamily where
  container_icon : String
  leaf_icon : String

/-- The implicit default family (fje.py line 49): both icons empty. -/
def defaultIcons : IconFamily := ⟨"", ""⟩

/-- The node model: Container (name, icon, ordered children) or Leaf
(name, icon).  In the source these are classes Container and Leaf over the
base Component (components.py lines 3-6, 44-47, 112-114); the style only
selects which draw functions below apply, the data is identical. -/
inductive Component where
  | container (name icon : String) (children : List Component)
  | leaf (name icon : String)

/-- Attribute self.name of a Component. -/
def Component.name : Component → String
  | .container n _ _ => n
  | .leaf n _ => n

/-- Attribute self.icon of a Component. -/
def Component.icon : Component → String
  | .container _ i _ => i
  | .leaf _ i => i

/-- Attribute self.children.  In Python only Container instances carry this
attribute; the iterator guards every access with hasattr, and that guard is
modelled by returning the empty list for a Leaf. -/
def Component.children : Component → List Component
  | .container _ _ cs => cs
  | .leaf _ _ => []

/-- The Python str() of a scalar as used in fje.py line 21.  The obj and
null arms are unreachable there: a dict takes the container branch and
null is filtered by the `data is not None` test before str is applied. -/
def pyStr : Json → String
  | .obj _ => ""
  | .str s => s
  | .num n => toString n
  | .bool b => if b then "True" else "False"
  | .null => "None"

/-- The isinstance(data, dict) test of fje.py line 12. -/
def isDict : Json → Bool
  | .obj _ => true
  | _ => false

/-- The leaf display name of fje.py line 21:
`name + (": " + str(data) if data is not None else "")`. -/
def leafLabel (name : String) (data : Json) : String :=
  match data with
  | .null => name
  | d => name ++ ": " ++ pyStr d

mutual
/-- TreeBuilder.build_tree (fje.py lines 11-22) without the root capture:
a dict becomes a Container with one child per key in iteration order; any
other value becomes a Leaf whose name is `name + ": " + str(data)` when the
value is not null and just `name` otherwise. -/
def build_tree (fam : IconFamily) : Json → String → Component
  | .obj fields, name => .container name fam.container_icon (build_children fam fields)
  | .str s, name => .leaf (name ++ ": " ++ pyStr (.str s)) fam.leaf_icon
  | .num n, name => .leaf (name ++ ": " ++ pyStr (.num n)) fam.leaf_icon
  | .bool b, name => .leaf (name ++ ": " ++ pyStr (.bool b)) fam.leaf_icon
  | .null, name => .leaf name fam.leaf_icon

/-- The loop over data.items() in fje.py lines 16-18: one recursive
build per (key, value) pair, children appended in iteration order. -/
def build_children (fam : IconFamily) : List (String × Json) → List Component
  | [] => []
  | (key, v) :: rest => build_tree fam v key :: build_children fam rest
end

/-- Models TreeBuilder.root as read by get_result after build_tree(data).
The source sets self.root at the first Container created (fje.py lines
14-15); Containers are created only for dicts and in pre-order, so the
captured root is the top-level node exactly when the top-level value is a
dict, and self.root stays None when the top-level value is a scalar or
null (the scalar branch creates no Container and performs no recursion). -/
def get_result (fam : IconFamily) (data : Json) : Option Component :=
  if isDict data then some (build_tree fam data "root") else none

mutual
/-- Number of nodes of a subtree (the node itself plus all descendants). -/
def size : Component → Nat
  | .container _ _ cs => 1 + sizeList cs
  | .leaf _ _ => 1

/-- Total number of nodes of a forest. -/
def sizeList : List Component → Nat
  | [] => 0
  | c :: rest => size c + sizeList rest
end

mutual
/-- TreeContainer.draw and TreeLeaf.draw (components.py lines 62-75 and
123-126).  Returns the printed lines in order, paired with the node as it
stands after the call; tree drawing never assigns to any attribute, so the
returned node is rebuilt from exactly the parts the source reads. -/
def treeDrawS : Component → String → Bool → List String × Component
  | .leaf name icon, indent, is_last =>
      ([indent ++ (if is_last then "└─" else "├─") ++ icon ++ " " ++ name],
       .leaf name icon)
  | .container name icon cs, indent, is_last =>
      if indent = "r" then
        let r := treeDrawSList cs ""
        (r.1, .container name icon r.2)
      else
        let r := treeDrawSList cs (indent ++ (if is_last then "    " else "│   "))
        ((indent ++ (if is_last then "└─" else "├─") ++ icon ++ " " ++ name) :: r.1,
         .container name icon r.2)

/-- The loop of components.py lines 74-75: each child is drawn with
`i == len(children) - 1` as its is_last flag. -/
def treeDrawSList : List Component → String → List String × List Component
  | [], _ => ([], [])
  | [c], indent =>
      let r := treeDrawS c indent true
      (r.1, [r.2])
  | c :: c2 :: rest, indent =>
      let r := treeDrawS c indent false
      let rs := treeDrawSList (c2 :: rest) indent
      (r.1 ++ rs.1, r.2 :: rs.2)
end

/-- The lines printed by tree-style draw (the first projection only). -/
def treeDraw (c : Component) (indent : String) (is_last : Bool) : List String :=
  (treeDrawS c indent is_last).1

/-- Component.create_iterator / Container.create_iterator (components.py
lines 14-15 and 55-56), with the iterator state modelled as the list of
stacked components, topmost first.  The Python stack holds reversed
children and pops from the end, which yields the children front first, so
the initial state for a Container is its children in order; a Leaf gets
the always-empty NoneIterator. -/
def create_iterator : Component → List Component
  | .container _ _ cs => cs
  | .leaf _ _ => []

/-- CompositeIterator.has_next (components.py lines 32-33). -/
def has_next (stack : List Component) : Bool := decide (0 < stack.length)

/-- CompositeIterator.next (components.py lines 35-41): pop the top
component, push its children (the hasattr guard makes a Leaf push
nothing), and return it; on an exhausted stack return the None sentinel
and leave the stack empty. -/
def iterNext : List Component → Option Component × List Component
  | [] => (none, [])
  | c :: rest => (some c, c.children ++ rest)

/-- The iterator state after n calls of next(). -/
def iterSteps : Nat → List Component → List Component
  | 0, stack => stack
  | n + 1, stack => iterSteps n (iterNext stack).2

/-- All components yielded by repeated next() calls until has_next turns
false: the drained traversal of the iterator. -/
def drainIter : List Component → List Component
  | [] => []
  | c :: rest => c :: drainIter (c.children ++ rest)
termination_by stack => sizeList stack
decreasing_by
  have key : ∀ (a b : List Component), sizeList (a ++ b) = sizeList a + sizeList b := by
    intro a
    induction a with
    | nil => intro b; simp [sizeList]
    | cons x xs ih => intro b; simp [sizeList, ih]; omega
  cases c <;> simp [Component.children, key, sizeList, size]

mutual
/-- Depth-first pre-order listing of a subtree: the node, then the
pre-order listings of its children in order. -/
def preorder : Component → List Component
  | .container name icon cs => .container name icon cs :: preorderList cs
  | .leaf name icon => [.leaf name icon]

/-- Pre-order listing of a forest. -/
def preorderList : List Component → List Component
  | [] => []
  | c :: rest => preorder c ++ preorderList rest
end

/-- A run of n box-drawing dashes, the Python `"─" * n` (for a negative
Python operand the result is empty, matching truncated Nat subtraction at
every call site). -/
def dashes (n : Nat) : String := String.mk (List.replicate n '─')

/-- Whether the first list is an initial segment of the second. -/
def isPre : List Char → List Char → Bool
  | [], _ => true
  | _ :: _, [] => false
  | p :: ps, c :: cs => p == c && isPre ps cs

/-- Python s.replace(pat, rep, 1) on code-point lists, for a non-empty
pattern: replace the leftmost occurrence only. -/
def replFirst (pat rep : List Char) : List Char → List Char
  | [] => []
  | c :: rest =>
      if isPre pat (c :: rest) && !pat.isEmpty then
        rep ++ (c :: rest).drop pat.length
      else c :: replFirst pat rep rest

/-- Python s.replace(pat, rep) on code-point lists with explicit fuel, for
a non-empty pattern: replace every non-overlapping occurrence left to
right.  Each step consumes at least one code point, so fuel equal to the
length of the scanned list never runs out. -/
def replAllFuel : Nat → List Char → List Char → List Char → List Char
  | 0, _, _, s => s
  | _ + 1, _, _, [] => []
  | fuel + 1, pat, rep, c :: rest =>
      if isPre pat (c :: rest) && !pat.isEmpty then
        rep ++ replAllFuel fuel pat rep ((c :: rest).drop pat.length)
      else c :: replAllFuel fuel pat rep rest

/-- Python s.replace(old, new, 1) on strings. -/
def pyReplaceFirst (s old new : String) : String :=
  ⟨replFirst old.data new.data s.data⟩

/-- Python s.replace(old, new) on strings. -/
def pyReplaceAll (s old new : String) : String :=
  ⟨replAllFuel s.data.length old.data new.data s.data⟩

mutual
/-- RectangleContainer.max_length and RectangleLeaf.max_length
(components.py lines 105-109 and 144-145): the maximum over the subtree of
`indent_length + len(icon + " " + name)`, the indent growing by 3 per
level. -/
def max_length : Component → Nat → Nat
  | .leaf name icon, indent_length => indent_length + (icon ++ " " ++ name).length
  | .container name icon cs, indent_length =>
      Nat.max (indent_length + (icon ++ " " ++ name).length)
        (max_lengthList cs (indent_length + 3))

/-- The max over children with default 0 of components.py line 108. -/
def max_lengthList : List Component → Nat → Nat
  | [], _ => 0
  | c :: rest, indent_length =>
      Nat.max (max_length c indent_length) (max_lengthList rest indent_length)
end

/-- RectangleLeaf.draw (components.py lines 130-142).  line_length is the
Python `max_length - len(indent + icon + " " + name)`; a negative value
only feeds the dash repetition, where it acts as 0, so truncated Nat
subtraction is faithful.  For the last diagram row the inherited indent is
rewritten: the first `│   ` becomes `└───` and every further one `┴───`. -/
def rectLeafLine (name icon indent : String) (is_last : Bool) (maxLen : Nat) : String :=
  let line_length := maxLen - (indent ++ icon ++ " " ++ name).length
  let pre :=
    if is_last then
      let ind2 := pyReplaceAll (pyReplaceFirst indent "│   " "└───") "│   " "┴───"
      if ind2.length = 0 then ind2 ++ "└─" else ind2 ++ "┴─"
    else
      indent ++ (if is_last && decide (indent.length = 0) then "└─" else "├─")
  pre ++ icon ++ " " ++ name ++ dashes line_length ++ (if is_last then "─┘" else "─┤")

mutual
/-- RectangleContainer.draw for a non-root call (the else branch of
components.py lines 93-99 followed by the loop of lines 102-103) and
RectangleLeaf.draw.  Interior indents are built from `│   ` and are never
the root sentinel "r", so the two branches split into two functions. -/
def rectDraw : Component → String → Bool → Nat → List String
  | .container name icon cs, indent, is_last, maxLen =>
      (indent ++ "├─" ++ icon ++ " " ++ name
          ++ dashes (maxLen - (indent ++ icon ++ " " ++ name).length) ++ "─┤")
        :: rectDrawList cs (indent ++ "│   ") is_last maxLen
  | .leaf name icon, indent, is_last, maxLen =>
      [rectLeafLine name icon indent is_last maxLen]

/-- The loops of components.py lines 89-90 and 102-103: child i is drawn
with flag `i == len(children) - 1 and is_last`. -/
def rectDrawList : List Component → String → Bool → Nat → List String
  | [], _, _, _ => []
  | [c], indent, is_last, maxLen => rectDraw c indent is_last maxLen
  | c :: c2 :: rest, indent, is_last, maxLen =>
      rectDraw c indent false maxLen ++ rectDrawList (c2 :: rest) indent is_last maxLen
end

/-- Outcome of the root rectangle draw: the lines printed before the call
returned or raised, whether it completed without raising, and the root
node as it stands afterwards. -/
structure RectResult where
  lines : List String
  ok : Bool
  tree : Component

/-- RectangleContainer.draw for the root call (components.py lines 80-92,
the indent == "r" branch, then the loop of lines 102-103).  The source
reads self.children[0], so an empty root raises IndexError before printing
anything; it then iterates self.children[0].children, which raises
AttributeError after the first print when the first child is a Leaf; on
the non-raising path it pops the first child (line 91) before drawing the
remaining children with is_last True.  The Leaf arm models the dispatch
mismatch of DrawVisitor.visit_leaf, which cannot be reached for a built
root. -/
def rectDrawRoot : Component → RectResult
  | .leaf name icon => { lines := [], ok := false, tree := .leaf name icon }
  | .container name icon [] =>
      { lines := [], ok := false, tree := .container name icon [] }
  | .container name icon (c0 :: rest) =>
      let is_last := decide ((c0 :: rest).length = 1)
      let maxLen := max_length (.container name icon (c0 :: rest)) 0
      let line0 := "┌─" ++ c0.icon ++ " " ++ c0.name
          ++ dashes (maxLen - (c0.icon ++ " " ++ c0.name).length) ++ "─┐"
      match c0 with
      | .leaf n0 i0 =>
          { lines := [line0], ok := false,
            tree := .container name icon (.leaf n0 i0 :: rest) }
      | .container _ _ gcs =>
          { lines := line0 :: (rectDrawList gcs "│   " is_last maxLen
                ++ rectDrawList rest "│   " true maxLen),
            ok := true,
            tree := .container name icon rest }

/-! ### Helper lemmas -/

theorem sizeList_append : ∀ (a b : List Component),
    sizeList (a ++ b) = sizeList a + sizeList b
  | [], b => by simp [sizeList]
  | c :: rest, b => by simp [sizeList, sizeList_append rest b]; omega

theorem size_eq_children (c : Component) : size c = 1 + sizeList c.children := by
  cases c <;> simp [size, sizeList, Component.children]

theorem size_pos (c : Component) : 1 ≤ size c := by
  cases c <;> simp [size]

mutual

theorem treeDrawS_state : ∀ (c : Component) (indent : String) (l : Bool),
    (treeDrawS c indent l).2 = c
  | .leaf name icon, indent, l => by simp [treeDrawS]
  | .container name icon cs, indent, l => by
      by_cases h : indent = "r" <;>
        simp [treeDrawS, h, treeDrawSList_state cs]

theorem treeDrawSList_state : ∀ (cs : List Component) (indent : String),
    (treeDrawSList cs indent).2 = cs
  | [], indent => by simp [treeDrawSList]
  | [c], indent => by simp [treeDrawSList, treeDrawS_state c]
  | c :: c2 :: rest, indent => by
      simp [treeDrawSList, treeDrawS_state c, treeDrawSList_state (c2 :: rest)]

end

theorem append_len_four_ne_r (indent s : String) (hs : s.length = 4) :
    indent ++ s ≠ "r" := by
  intro he
  have hlen := congrArg String.length he
  rw [String.length_append, hs] at hlen
  have hr : ("r" : String).length = 1 := rfl
  omega

mutual

theorem treeDrawS_length : ∀ (c : Component) (indent : String) (l : Bool),
    indent ≠ "r" → (treeDrawS c indent l).1.length = size c
  | .leaf name icon, indent, l, _ => by simp [treeDrawS, size]
  | .container name icon cs, indent, l, h => by
      have h4 : (indent ++ (if l then "    " else "│   ")) ≠ "r" :=
        append_len_four_ne_r indent _ (by cases l <;> rfl)
      simp [treeDrawS, h, size,
        treeDrawSList_length cs (indent ++ (if l then "    " else "│   ")) h4]
      omega

theorem treeDrawSList_length : ∀ (cs : List Component) (indent : String),
    indent ≠ "r" → (treeDrawSList cs indent).1.length = sizeList cs
  | [], indent, _ => by simp [treeDrawSList, sizeList]
  | [c], indent, h => by
      simp [treeDrawSList, sizeList, treeDrawS_length c indent true h]
  | c :: c2 :: rest, indent, h => by
      simp [treeDrawSList, sizeList, treeDrawS_length c indent false h,
        treeDrawSList_length (c2 :: rest) indent h]

end

theorem preorderList_append : ∀ (a b : List Component),
    preorderList (a ++ b) = preorderList a ++ preorderList b
  | [], b => by simp [preorderList]
  | c :: rest, b => by simp [preorderList, preorderList_append rest b]

theorem preorder_eq (c : Component) : preorder c = c :: preorderList c.children := by
  cases c <;> simp [preorder, Component.children, preorderList]

mutual

theorem preorder_length : ∀ (c : Component), (preorder c).length = size c
  | .leaf name icon => by simp [preorder, size]
  | .container name icon cs => by
      simp [preorder, size, preorderList_length cs]
      omega

theorem preorderList_length : ∀ (cs : List Component),
    (preorderList cs).length = sizeList cs
  | [] => by simp [preorderList, sizeList]
  | c :: rest => by
      simp [preorderList, sizeList, preorder_length c, preorderList_length rest]

end

theorem drainIter_eq : ∀ (st : List Component), drainIter st = preorderList st
  | [] => by simp [drainIter, preorderList]
  | c :: rest => by
      rw [show drainIter (c :: rest) = c :: drainIter (c.children ++ rest) from by
        simp [drainIter]]
      rw [drainIter_eq (c.children ++ rest), preorderList_append]
      simp [preorderList, preorder_eq]
termination_by st => sizeList st
decreasing_by
  simp [sizeList_append, sizeList]
  have := size_eq_children c
  omega

theorem iterSteps_nil : ∀ (m : Nat), iterSteps m ([] : List Component) = []
  | 0 => rfl
  | m + 1 => by simp [iterSteps, iterNext, iterSteps_nil m]

theorem iterSteps_exhaust : ∀ (st : List Component), iterSteps (sizeList st) st = []
  | [] => rfl
  | c :: rest => by
      have key : sizeList (c :: rest) = sizeList (c.children ++ rest) + 1 := by
        simp [sizeList_append, sizeList]
        have := size_eq_children c
        omega
      rw [key]
      simpa [iterSteps, iterNext] using iterSteps_exhaust (c.children ++ rest)
termination_by st => sizeList st
decreasing_by
  simp [sizeList_append, sizeList]
  have := size_eq_children c
  omega

theorem build_children_elem (fam : IconFamily) :
    ∀ (fields : List (String × Json)) (i : Nat) (kv : String × Json),
      fields[i]? = some kv →
      (build_children fam fields)[i]? = some (build_tree fam kv.2 kv.1)
  | [], i, kv, h => by simp at h
  | (k, v) :: rest, 0, kv, h => by
      simp at h
      simp [build_children, ← h]
  | (k, v) :: rest, i + 1, kv, h => by
      simp at h
      simpa [build_children] using build_children_elem fam rest i kv h

/-! ### Claim theorems -/

/-- C1: the claim states that every border line of a rectangle-style
render has the same total width, equal to the measure-pass value plus a
fixed overhead.  The code violates it: the measure pass counts 3 columns
of indent per depth while drawing indents by 4, so for the built tree of
the input with keys a (an empty mapping) and longkey (value 1) a render
that completes without raising emits a first line of width 18 (the
measured 14 plus overhead 4) and a final line of width 19. -/
theorem rect_width_alignment_fails :
    (rectDrawRoot (build_tree defaultIcons
        (.obj [("a", .obj []), ("longkey", .num 1)]) "root")).ok = true
    ∧ ((rectDrawRoot (build_tree defaultIcons
        (.obj [("a", .obj []), ("longkey", .num 1)]) "root")).lines.map String.length)
        = [18, 19]
    ∧ max_length (build_tree defaultIcons
        (.obj [("a", .obj []), ("longkey", .num 1)]) "root") 0 + 4 = 18 :=
  ⟨rfl, rfl, rfl⟩

/-- C2: the claim states that both renderers are total on every built
tree, in particular on a root with zero children and on a root whose
first child is a Leaf.  The code violates it: rectangle-style draw on the
tree built from the empty mapping raises IndexError at children[0] before
printing anything, and on the tree built from the mapping with keys x and
y raises AttributeError at children[0].children because the first child
is a Leaf. -/
theorem rect_draw_raises :
    (rectDrawRoot (build_tree defaultIcons (.obj []) "root")).ok = false
    ∧ (rectDrawRoot (build_tree defaultIcons (.obj []) "root")).lines = []
    ∧ (rectDrawRoot (build_tree defaultIcons
        (.obj [("x", .num 1), ("y", .num 2)]) "root")).ok = false :=
  ⟨rfl, rfl, rfl⟩

/-- C3: the claim states that rectangle-style output for the mapping with
x mapped to 1 and y mapped to 2 starts with the corner opener line and
ends with a line closing on the bottom-right corner glyph.  The code
prints the opener and then raises: the first child of the root is a Leaf,
so the iteration over children[0].children raises AttributeError and no
closing line is ever emitted. -/
theorem rect_scenario_c_fails :
    (rectDrawRoot (build_tree defaultIcons
        (.obj [("x", .num 1), ("y", .num 2)]) "root")).lines = ["┌─ x: 1────┐"]
    ∧ (rectDrawRoot (build_tree defaultIcons
        (.obj [("x", .num 1), ("y", .num 2)]) "root")).ok = false :=
  ⟨rfl, rfl⟩

/-- C4 counterexample: the claim states that the captured root is a
Container named root even when the top-level decoded value is a single
scalar; but for the scalar 1 the Builder captures nothing at all. -/
theorem root_capture_scalar_counterexample :
    ¬ ∃ c : Component, get_result defaultIcons (Json.num 1) = some c := by
  rintro ⟨c, hc⟩
  simp [get_result, isDict] at hc

/-- C4 amended: when the top-level decoded value is a mapping the captured
root is a Container named root holding the children built from the
mapping; when the top-level value is a scalar or null, no root is captured
and the result stays None. -/
theorem root_capture_amended (fam : IconFamily) (fields : List (String × Json))
    (s : String) (n : Int) (b : Bool) :
    get_result fam (.obj fields)
      = some (.container "root" fam.container_icon (build_children fam fields))
    ∧ get_result fam (.str s) = none
    ∧ get_result fam (.num n) = none
    ∧ get_result fam (.bool b) = none
    ∧ get_result fam .null = none :=
  ⟨rfl, rfl, rfl, rfl, rfl⟩

/-- C5: for every tree built from a top-level mapping, tree-style
rendering from the root dispatch emits exactly one line per non-root
node: the line count equals the node count minus one. -/
theorem tree_style_line_count (fam : IconFamily) (fields : List (String × Json)) :
    (treeDraw (build_tree fam (.obj fields) "root") "r" true).length
      = size (build_tree fam (.obj fields) "root") - 1 := by
  have h := treeDrawSList_length (build_children fam fields) "" (by decide)
  simp [treeDraw, build_tree, treeDrawS, size, h]

/-- C6: the Builder preserves mapping key order as sibling order: the
child built from the pair at index i of any mapping sits at index i of
the children of the resulting Container, at every depth, since the same
build function runs at every depth. -/
theorem builder_order_preservation (fam : IconFamily) (name : String)
    (fields : List (String × Json)) (i : Nat) (kv : String × Json)
    (h : fields[i]? = some kv) :
    (build_tree fam (.obj fields) name).children[i]?
      = some (build_tree fam kv.2 kv.1) := by
  simpa [build_tree, Component.children] using build_children_elem fam fields i kv h

/-- C6 witness: in the two-key mapping with keys a and b, the child at
index 1 is the leaf built from key b. -/
theorem builder_order_preservation_witness :
    (build_tree defaultIcons (.obj [("a", .num 1), ("b", .null)]) "root").children[1]?
      = some (Component.leaf "b" "") :=
  builder_order_preservation defaultIcons "root" [("a", .num 1), ("b", .null)]
    1 ("b", .null) rfl

/-- C7: a leaf built from a key and a non-null scalar is named by the key,
a colon-space separator and the stringified value; a leaf built from a
null value is named by the key alone. -/
theorem builder_scalar_format (fam : IconFamily) (key : String) (d : Json)
    (h : isDict d = false) :
    build_tree fam d key = .leaf (leafLabel key d) fam.leaf_icon := by
  cases d <;> first
    | rfl
    | simp [isDict] at h

/-- C7 witness: key age with value 30 yields the leaf named age colon 30,
and key nickname with null yields the leaf named nickname. -/
theorem builder_scalar_format_witness :
    build_tree defaultIcons (.num 30) "age" = .leaf "age: 30" ""
    ∧ build_tree defaultIcons .null "nickname" = .leaf "nickname" "" := by
  constructor
  · rw [builder_scalar_format defaultIcons "age" (.num 30) rfl]; rfl
  · rw [builder_scalar_format defaultIcons "nickname" .null rfl]; rfl

/-- C8: a fresh iterator over a Container with K descendants yields
exactly K successful next calls, returning the descendants in depth-first
pre-order; the state after those K steps is empty, stays empty under any
number of further steps, has_next is false on it, and a further next
returns the None sentinel instead of raising. -/
theorem iterator_exhaustion (name icon : String) (cs : List Component) :
    drainIter (create_iterator (.container name icon cs)) = preorderList cs
    ∧ (drainIter (create_iterator (.container name icon cs))).length = sizeList cs
    ∧ iterSteps (sizeList cs) (create_iterator (.container name icon cs)) = []
    ∧ (∀ m, iterSteps m ([] : List Component) = [])
    ∧ has_next ([] : List Component) = false
    ∧ (iterNext ([] : List Component)).1 = none := by
  refine ⟨?_, ?_, ?_, iterSteps_nil, rfl, rfl⟩
  · simpa [create_iterator] using drainIter_eq cs
  · simp [create_iterator, drainIter_eq cs, preorderList_length cs]
  · simpa [create_iterator] using iterSteps_exhaust cs

/-- C9 counterexample: the claim states that rendering leaves every node
unchanged and in particular removes no child from any children list; but
a completed rectangle-style render of the tree built from the mapping
with keys a (an empty mapping) and b pops the first child of the root,
leaving one child where there were two. -/
theorem nodes_readonly_counterexample :
    ((rectDrawRoot (build_tree defaultIcons
        (.obj [("a", .obj []), ("b", .num 2)]) "root")).tree).children.length = 1
    ∧ (build_tree defaultIcons
        (.obj [("a", .obj []), ("b", .num 2)]) "root").children.length = 2
    ∧ (rectDrawRoot (build_tree defaultIcons
        (.obj [("a", .obj []), ("b", .num 2)]) "root")).ok = true :=
  ⟨rfl, rfl, rfl⟩

/-- C9 amended: tree-style rendering leaves every node unchanged, and
rectangle-style root rendering removes exactly the first child of the
root from its children when it completes without raising, leaving the
root unchanged when it raises. -/
theorem nodes_readonly_amended (c : Component) (indent : String) (l : Bool)
    (name icon : String) (cs : List Component) :
    (treeDrawS c indent l).2 = c
    ∧ ((rectDrawRoot (.container name icon cs)).ok = true →
        (rectDrawRoot (.container name icon cs)).tree
          = .container name icon (cs.drop 1))
    ∧ ((rectDrawRoot (.container name icon cs)).ok = false →
        (rectDrawRoot (.container name icon cs)).tree
          = .container name icon cs) := by
  refine ⟨treeDrawS_state c indent l, ?_, ?_⟩
  · match cs with
    | [] => intro h; simp [rectDrawRoot] at h
    | .leaf n0 i0 :: rest => intro h; simp [rectDrawRoot] at h
    | .container n0 i0 g :: rest => intro _; rfl
  · match cs with
    | [] => intro _; rfl
    | .leaf n0 i0 :: rest => intro _; rfl
    | .container n0 i0 g :: rest => intro h; simp [rectDrawRoot] at h

/-- C9 amended witness: on the tree built from the mapping with keys a
(an empty mapping) and b, the completed rectangle render leaves the root
with exactly the children after the first. -/
theorem nodes_readonly_amended_witness :
    (rectDrawRoot (Component.container "root" ""
        [.container "a" "" [], .leaf "b: 2" ""])).tree
      = Component.container "root" "" [Component.leaf "b: 2" ""] :=
  (nodes_readonly_amended (.leaf "w" "") "" true "root" ""
    [.container "a" "" [], .leaf "b: 2" ""]).2.1 rfl

/-- C10: tree-style rendering is repeatable: drawing the node left by a
first root-dispatch draw with the same initial arguments emits exactly
the same lines as the first draw, since tree-style draw never modifies
any node. -/
theorem tree_draw_repeatable (c : Component) :
    (treeDrawS (treeDrawS c "r" true).2 "r" true).1 = (treeDrawS c "r" true).1 := by
  rw [treeDrawS_state c "r" true]

end FJE
